import Mathlib

/-!
Verification development for the task-auto-sorting application.

The definitions below are a shallow embedding of the program's core logic:
the LINE-webhook chat-command interpreter (two variants found in
`src/app/api/line/webhook/route.ts`, called V1 for the single-command
variant and the unprefixed defs for the multi-line variant), the dashboard
handlers (`src/app/page.tsx`, namespace `Dashboard`), and the analyze API
route (`src/app/api/tasks/analyze/route.ts`).

Strings are modelled as Lean `String`/`List Char`; JavaScript regular
expressions used by the interpreter are embedded as explicit matching
functions whose greedy/backtracking behaviour is reproduced for the
pattern shapes actually used.  The external task store is modelled as a
`List Task`; row updates are maps over that list keyed by `id`.  External
collaborators (the AI classifier and the store fetch) are parameters:
the classifier is a function argument and a fetch failure is a Boolean
flag (the source swallows fetch errors into an empty list).
-/

namespace TaskApp

/-- JavaScript `\s` / `String.prototype.trim` whitespace class. -/
def jsSpace (c : Char) : Bool :=
  c = ' ' || c = '\t' || c = '\n' || c = '\r' || c.toNat = 0x0b || c.toNat = 0x0c ||
  c.toNat = 0xa0 || c.toNat = 0x1680 || (0x2000 ≤ c.toNat && c.toNat ≤ 0x200a) ||
  c.toNat = 0x2028 || c.toNat = 0x2029 || c.toNat = 0x202f || c.toNat = 0x205f ||
  c.toNat = 0x3000 || c.toNat = 0xfeff

/-- Characters matched by `.` in a JavaScript regex without the `s` flag
(anything but a line terminator). -/
def dotChar (c : Char) : Bool :=
  !(c = '\n' || c = '\r' || c.toNat = 0x2028 || c.toNat = 0x2029)

/-- `String.prototype.trim`. -/
def trimJS (l : List Char) : List Char :=
  ((l.dropWhile jsSpace).reverse.dropWhile jsSpace).reverse

/-- Split on `/\r?\n/` (auxiliary accumulator form). -/
def splitLinesAux : List Char → List Char → List (List Char)
  | [], acc => [acc.reverse]
  | '\n' :: rest, acc =>
    (match acc with
     | '\r' :: t => t.reverse
     | _ => acc.reverse) :: splitLinesAux rest []
  | c :: rest, acc => splitLinesAux rest (c :: acc)

/-- Split a character list on `/\r?\n/`, as `text.split(/\r?\n/)`. -/
def splitLines (l : List Char) : List (List Char) := splitLinesAux l []

/-- Normalization of one character in the multi-line webhook variant:
full-width ASCII `！`–`～` is shifted down by `0xfee0`. -/
def normChar (c : Char) : Char :=
  if 0xff01 ≤ c.toNat ∧ c.toNat ≤ 0xff5e then Char.ofNat (c.toNat - 0xfee0) else c

/-- Message normalization of the multi-line webhook variant:
full-width alphanumerics to half-width, ideographic space to space, trim. -/
def normalizeV2 (s : List Char) : List Char :=
  trimJS ((s.map normChar).map (fun c => if c.toNat = 0x3000 then ' ' else c))

/-- ASCII lower-casing of one character (used to compare against the
fixed ASCII keywords `list` / `help` / `dashboard`). -/
def lowerChar (c : Char) : Char :=
  if 'A' ≤ c ∧ c ≤ 'Z' then Char.ofNat (c.toNat + 32) else c

/-- `parseInt` on a run of decimal digits. -/
def digitsToNat (ds : List Char) : Nat :=
  ds.foldl (fun a c => 10 * a + (c.toNat - 48)) 0

/-- Maximal leading digit run together with the rest, `none` if the list
does not start with a digit (the `^(\d+)` part of the command regexes). -/
def parseDigits (l : List Char) : Option (Nat × List Char) :=
  let ds := l.takeWhile Char.isDigit
  if ds.isEmpty then none else some (digitsToNat ds, l.dropWhile Char.isDigit)

/-- Accumulator form of `digitRuns`: `cur` is the reversed current run. -/
def digitRunsAux : List Char → List Char → List (List Char)
  | [], cur => if cur.isEmpty then [] else [cur.reverse]
  | c :: rest, cur =>
    if c.isDigit then digitRunsAux rest (c :: cur)
    else if cur.isEmpty then digitRunsAux rest []
    else cur.reverse :: digitRunsAux rest []

/-- Maximal digit runs of a list, in order: the digit substrings produced
by `str.split(/[^\d]+/).filter(Boolean)`. -/
def digitRuns (l : List Char) : List (List Char) := digitRunsAux l []

/-- Task record, mirroring the `Task` type of `src/types`.  `priority` and
`status` are strings at runtime (TypeScript types are erased; the store
accepts any string).  `created_at` is an epoch timestamp in milliseconds. -/
structure Task where
  id : Nat
  user_id : String
  title : String
  category : String
  priority : String
  status : String
  created_at : Nat
deriving Repr, DecidableEq

/-- Classifier proposal: one element of the JSON array returned by the AI. -/
structure Proposed where
  title : String
  category : String
  priority : String
deriving Repr, DecidableEq

/-- The `priorityOrder` record of the webhook: `S`→0, `A`→1, `B`→2, `C`→3,
anything else absent. -/
def priorityOrderJS (p : String) : Option Nat :=
  if p = "S" then some 0 else if p = "A" then some 1
  else if p = "B" then some 2 else if p = "C" then some 3 else none

/-- `priorityOrder[p] ?? 3`. -/
def priorityRank (p : String) : Nat := (priorityOrderJS p).getD 3

/-- Boolean "comparator ≤ 0" of the sort in `fetchActiveTasks`:
rank first (ascending), `created_at` second (ascending).  The source
comparator returns `pA - pB` when the ranks differ and the timestamp
difference otherwise; this is the induced total preorder. -/
def taskLE (a b : Task) : Bool :=
  if priorityRank a.priority = priorityRank b.priority
  then decide (a.created_at ≤ b.created_at)
  else decide (priorityRank a.priority < priorityRank b.priority)

/-- The store query of `fetchActiveTasks`: the user's rows whose status is
neither `削除済み` (deleted) nor `完了` (done). -/
def activeQuery (uid : String) (db : List Task) : List Task :=
  db.filter (fun t => t.user_id == uid && !(t.status == "削除済み") && !(t.status == "完了"))

/-- The total preorder induced by the comparator, as a relation. -/
def taskLEP (a b : Task) : Prop := taskLE a b = true

instance : DecidableRel taskLEP := fun a b => instDecidableEqBool (taskLE a b) true

/-- The sort applied to a fetched row set.  JS `Array.prototype.sort`
with a consistent comparator is specified as a stable sort, and all
stable sorts of a total preorder agree; `List.insertionSort` is a stable
sort and is used as the model. -/
def sortActive (rows : List Task) : List Task := rows.insertionSort taskLEP

/-- `fetchActiveTasks` on the result of the store read: a failed read
(`error || !data`) yields the empty list, a successful one is sorted. -/
def fetchActiveTasksResult (res : Option (List Task)) : List Task :=
  match res with
  | none => []
  | some rows => sortActive rows

/-- `fetchActiveTasks` with a healthy store. -/
def fetchActiveTasks (uid : String) (db : List Task) : List Task :=
  fetchActiveTasksResult (some (activeQuery uid db))

/-- `tasks[idx - 1]` with JavaScript semantics: `idx = 0` accesses
`tasks[-1]`, which is `undefined`. -/
def getTask (tasks : List Task) (idx : Nat) : Option Task :=
  if idx = 0 then none else tasks.get? (idx - 1)

/-- The numbered rendering of the flex message: entry `i` (0-based) is
displayed with number `i + 1`. -/
def renderEnumerate (tasks : List Task) : List (Nat × Task) :=
  tasks.enum.map (fun q => (q.1 + 1, q.2))

-- Row updates (`supabase.from('tasks').update({...}).eq('id', id)`).

/-- `update({ status }).eq('id', id)`. -/
def updateStatusById (db : List Task) (id : Nat) (s : String) : List Task :=
  db.map (fun t => if t.id = id then { t with status := s } else t)

/-- `update({ priority }).eq('id', id)` — the V1 webhook variant's
priority update, which does not touch `status`. -/
def updatePriorityById (db : List Task) (id : Nat) (p : String) : List Task :=
  db.map (fun t => if t.id = id then { t with priority := p } else t)

/-- `update({ priority, status: '未処理' }).eq('id', id)` — the multi-line
webhook variant's priority update, which resets `status`. -/
def updatePriorityResetById (db : List Task) (id : Nat) (p : String) : List Task :=
  db.map (fun t => if t.id = id then { t with priority := p, status := "未処理" } else t)

/-- `update({ title }).eq('id', id)`. -/
def updateTitleById (db : List Task) (id : Nat) (s : String) : List Task :=
  db.map (fun t => if t.id = id then { t with title := s } else t)

/-- Batch insert of classifier proposals: each row gets the user id and
default status `未処理` (set explicitly by the insert paths, or by the
store's column default).  Row ids and timestamps are store-assigned; the
model numbers ids from the current length and abstracts the timestamp. -/
def insertTasks (uid : String) (db : List Task) (ps : List Proposed) : List Task :=
  db ++ ps.enum.map (fun q =>
    { id := db.length + q.1, user_id := uid, title := q.2.title,
      category := q.2.category, priority := q.2.priority,
      status := "未処理", created_at := 0 })

/-- The six enumerated priority values of the data model. -/
def allowedPriority (p : String) : Bool :=
  p == "S" || p == "A" || p == "B" || p == "C" || p == "DEV" || p == "IDEA"

/-- Classifier stub that extracts nothing (also the behaviour of
`analyzeTasksWithAI` when the model call fails). -/
def aiEmpty : String → List Proposed := fun _ => []

/-- Classifier stub that proposes one `S`-priority task for any text. -/
def aiOneS : String → List Proposed := fun _ => [⟨"extracted", "batch", "S"⟩]

/-! ### Embedded regex matchers of the multi-line webhook variant

Each matcher reproduces the corresponding JavaScript regex, including the
greedy/backtracking behaviour observable through its captures. -/

/-- The capture of `(.+)` in `[はを]\s*(.+)\s*に修正$` applied to the
region `body` between the connector and the trailing `に修正`: leading
whitespace is absorbed by `\s*`, the capture is the maximal run of
`.`-matchable characters whose remainder is whitespace.  Returns `none`
when the regex cannot match (capture would be empty or blocked by a line
terminator). -/
def extractTitle (body : List Char) : Option (List Char) :=
  let u := body.dropWhile jsSpace
  if u.isEmpty then
    match (body.filter dotChar).getLast? with
    | some c => some [c]
    | none => none
  else
    match u.findIdx? (fun c => !dotChar c) with
    | none => some u
    | some k => if (u.drop k).all jsSpace then some (u.take k) else none

/-- `に修正` as characters. -/
def editSuffix : List Char := "に修正".data

/-- `/^(\d+)\s*[はを]\s*(.+)\s*に修正$/`: rename command.  Returns the
1-based index and the captured new title. -/
def matchEdit (l : List Char) : Option (Nat × List Char) :=
  match parseDigits l with
  | none => none
  | some (n, r1) =>
    match r1.dropWhile jsSpace with
    | [] => none
    | c :: r3 =>
      if c = 'は' ∨ c = 'を' then
        if editSuffix.isSuffixOf r3 then
          match extractTitle (r3.take (r3.length - editSuffix.length)) with
          | some t => some (n, t)
          | none => none
        else none
      else none

/-- The character class `[SABCsabc]` of `([SABC])` with the `i` flag. -/
def sabcChars : List Char := ['S', 'A', 'B', 'C', 's', 'a', 'b', 'c']

/-- `/^(\d+)\s*[はを]?\s*([SABC])\s*$/i`: reprioritize command.  Returns
the 1-based index and the upper-cased priority letter. -/
def matchPriority (l : List Char) : Option (Nat × Char) :=
  match parseDigits l with
  | none => none
  | some (n, r1) =>
    let r2 := r1.dropWhile jsSpace
    let r3 := match r2 with
              | c :: rest => if c = 'は' ∨ c = 'を' then rest else r2
              | [] => r2
    match r3.dropWhile jsSpace with
    | c :: r5 =>
      if sabcChars.contains c ∧ r5.all jsSpace then some (n, c.toUpper) else none
    | [] => none

/-- The status-word alternation `完了|削除|進行中|開発中|保留|静観|戻す`. -/
def statusWords : List (List Char) :=
  ["完了", "削除", "進行中", "開発中", "保留", "静観", "戻す"].map String.data

/-- The character class `[\d\sと、,]`. -/
def isClassChar (c : Char) : Bool :=
  c.isDigit || jsSpace c || c = 'と' || c = '、' || c = ','

/-- Decomposition of the part before the status word in the suffix-form
status command: `([\d\sと、,]+)\s*[はを]?\s*`.  Returns the capture of the
index-list group when the decomposition exists.  (No status word and no
second connector can occur inside it: `は`/`を` are outside the class, so
the split at the first connector is the only candidate.) -/
def connectorSplit (body : List Char) : Option (List Char) :=
  match body.findIdx? (fun c => c = 'は' || c = 'を') with
  | none => if !body.isEmpty ∧ body.all isClassChar then some body else none
  | some p =>
    let a := body.take p
    let rest := body.drop (p + 1)
    if !a.isEmpty ∧ a.all isClassChar ∧ rest.all jsSpace then some a else none

/-- `/^([\d\sと、,]+)\s*[はを]?\s*(完了|削除|進行中|開発中|保留|静観|戻す)$/`:
suffix-form (multi-target) status command.  Returns the parsed index list
(`match[1].split(/[^\d]+/).filter(Boolean).map(parseInt)`) and the status
word.  The status words have pairwise distinct suffix patterns, so the `$`
anchor determines the matched word uniquely. -/
def matchStatusEnd (l : List Char) : Option (List Nat × List Char) :=
  match statusWords.find? (fun w => w.isSuffixOf l) with
  | none => none
  | some w =>
    match connectorSplit (l.take (l.length - w.length)) with
    | some a => some ((digitRuns a).map digitsToNat, w)
    | none => none

/-- `/^(完了|削除|進行中|開発中|保留|静観|戻す)\s*([\d\sと、,]+)$/`:
prefix-form (multi-target) status command.  The words have pairwise
distinct first characters, so the `^` anchor determines the match
uniquely; whitespace is itself in the class, so the group matches exactly
when the whole remainder is nonempty and inside the class (the capture
differs from the remainder only by leading whitespace, which contains no
digits, so the parsed index list is the same). -/
def matchCommandStart (l : List Char) : Option (List Nat × List Char) :=
  match statusWords.find? (fun w => w.isPrefixOf l) with
  | none => none
  | some w =>
    let rest := l.drop w.length
    if !rest.isEmpty ∧ rest.all isClassChar then
      some ((digitRuns rest).map digitsToNat, w)
    else none

/-- `/^\d+(\s|は|を|$)/`: the "looks like a command" test for error
reporting (digits followed by a separator or end of line). -/
def digitLead (l : List Char) : Bool :=
  match l with
  | [] => false
  | c :: _ =>
    c.isDigit &&
      (match l.dropWhile Char.isDigit with
       | [] => true
       | d :: _ => jsSpace d || d = 'は' || d = 'を')

/-- `statusStr === '削除' ? '削除済み' : (statusStr === '戻す' ? '未処理' : statusStr)`. -/
def statusFromWord (w : List Char) : String :=
  if w = "削除".data then "削除済み"
  else if w = "戻す".data then "未処理"
  else String.mk w

/-! ### The multi-line message handler (second webhook variant) -/

/-- Reply messages, one constructor per distinct message template of the
source (the concrete Japanese text is presentational). -/
inductive Reply where
  | flexList (tasks : List Task)
  | helpText
  | dashboardLink
  | editOk (oldTitle newTitle : String)
  | priorityOk (title : String) (p : Char)
  | statusOk (word : String) (title : String)
  | unrecognized (line : String)
  | added (n : Nat)
  | extractFailed (text : String)
  | couldNotUnderstand (text : String)
  | taskNotFound (idx : Nat)
  | statusChanged (title status : String)
  | deletedTask (title : String)
  | priorityChanged (title p : String)
  | titleChanged (oldTitle newTitle : String)
deriving Repr, DecidableEq

/-- State threaded through the per-line loop of `handleMessage`:
the store, the accumulated `commandResults`, and the accumulated
`taskLines` destined for the AI batch. -/
structure LoopState where
  db : List Task
  results : List Reply
  taskLines : List (List Char)
deriving Repr, DecidableEq

/-- The body of the `for (const idx of targetIndices)` loops of both
multi-target status forms: each valid index updates the status of the
snapshot task with that display position and reports success; invalid
indices are skipped silently. -/
def applyStatusTargets (tasks : List Task) (w : List Char) (s : LoopState)
    (targets : List Nat) : LoopState :=
  targets.foldl
    (fun st idx =>
      match getTask tasks idx with
      | some t =>
        { st with
          db := updateStatusById st.db t.id (statusFromWord w),
          results := st.results ++ [.statusOk (String.mk w) t.title] }
      | none => st)
    s

/-- Final fallthrough of the per-line dispatch: digit-led lines are
reported as unrecognized commands, everything else joins the AI batch. -/
def lineStepD (s : LoopState) (l : List Char) : LoopState :=
  if digitLead l then { s with results := s.results ++ [.unrecognized (String.mk l)] }
  else { s with taskLines := s.taskLines ++ [l] }

/-- Prefix-form status command stage. -/
def lineStepC (tasks : List Task) (s : LoopState) (l : List Char) : LoopState :=
  match matchCommandStart l with
  | some (targets, w) => applyStatusTargets tasks w s targets
  | none => lineStepD s l

/-- Suffix-form status command stage. -/
def lineStepB (tasks : List Task) (s : LoopState) (l : List Char) : LoopState :=
  match matchStatusEnd l with
  | some (targets, w) => applyStatusTargets tasks w s targets
  | none => lineStepC tasks s l

/-- Reprioritize stage.  When the regex matches but the snapshot has no
task at the index, control falls through to the next pattern, as in the
source (`if (tasks[idx - 1]) { ...; continue }`). -/
def lineStepA (tasks : List Task) (s : LoopState) (l : List Char) : LoopState :=
  match matchPriority l with
  | some (idx, c) =>
    (match getTask tasks idx with
     | some t =>
       { s with
         db := updatePriorityResetById s.db t.id (String.mk [c]),
         results := s.results ++ [.priorityOk t.title c] }
     | none => lineStepB tasks s l)
  | none => lineStepB tasks s l

/-- One iteration of `for (const line of lines)`, starting with the
rename pattern. -/
def lineStep (tasks : List Task) (s : LoopState) (l : List Char) : LoopState :=
  match matchEdit l with
  | some (idx, titleChars) =>
    (match getTask tasks idx with
     | some t =>
       { s with
         db := updateTitleById s.db t.id (String.mk titleChars),
         results := s.results ++ [.editOk t.title (String.mk titleChars)] }
     | none => lineStepA tasks s l)
  | none => lineStepA tasks s l

/-- How the dispatch classifies one line: executed as a command, reported
as a malformed (digit-led) command, or accumulated as free text. -/
inductive LineClass where
  | command
  | badCommand
  | freeText
deriving Repr, DecidableEq

/-- Classification mirror of `lineStepD`. -/
def classifyD (l : List Char) : LineClass :=
  if digitLead l then .badCommand else .freeText

/-- Classification mirror of `lineStepC`. -/
def classifyC (l : List Char) : LineClass :=
  match matchCommandStart l with
  | some _ => .command
  | none => classifyD l

/-- Classification mirror of `lineStepB`. -/
def classifyB (l : List Char) : LineClass :=
  match matchStatusEnd l with
  | some _ => .command
  | none => classifyC l

/-- Classification mirror of `lineStepA`. -/
def classifyA (tasks : List Task) (l : List Char) : LineClass :=
  match matchPriority l with
  | some (idx, _) =>
    (match getTask tasks idx with
     | some _ => .command
     | none => classifyB l)
  | none => classifyB l

/-- Classification mirror of `lineStep`. -/
def classifyLine (tasks : List Task) (l : List Char) : LineClass :=
  match matchEdit l with
  | some (idx, _) =>
    (match getTask tasks idx with
     | some _ => .command
     | none => classifyA tasks l)
  | none => classifyA tasks l

/-- `taskLines.join("\n")`. -/
def joinLines (ls : List (List Char)) : String :=
  String.mk (List.intercalate ['\n'] ls)

/-- Final output of one message-handling pass: the store afterwards and
the reply messages sent. -/
structure MsgOut where
  db : List Task
  messages : List Reply
deriving Repr, DecidableEq

/-- The part of `handleMessage` after normalization and the meta-command
checks: the per-line loop over the fetched snapshot, then the single AI
batch for the accumulated free-text lines, then the final reply.  `ai` is
the `analyzeTasksWithAI` collaborator (which already collapses its own
failures into an empty list). -/
def handleMessageCore (ai : String → List Proposed) (uid : String)
    (tasks : List Task) (lines : List (List Char)) (rawText : String)
    (db0 : List Task) : MsgOut :=
  let s := lines.foldl (lineStep tasks) ⟨db0, [], []⟩
  let r :=
    if s.taskLines.isEmpty then s
    else
      let newTasks := ai (joinLines s.taskLines)
      if !newTasks.isEmpty then
        { s with db := insertTasks uid s.db newTasks,
                 results := s.results ++ [.added newTasks.length] }
      else if s.results.isEmpty then
        { s with results := s.results ++ [.extractFailed (joinLines s.taskLines)] }
      else s
  if r.results.isEmpty then ⟨r.db, [.couldNotUnderstand rawText]⟩
  else ⟨r.db, r.results ++ [.flexList (fetchActiveTasks uid r.db)]⟩

/-- `list` meta-command test on the normalized text. -/
def isListCommand (nt : List Char) : Bool :=
  nt == "一覧".data || nt == "いちらん".data || nt.map lowerChar == "list".data

/-- `help` meta-command test. -/
def isHelpCommand (nt : List Char) : Bool :=
  nt == "使い方".data || nt == "ヘルプ".data || nt.map lowerChar == "help".data

/-- `dashboard` meta-command test. -/
def isDashboardCommand (nt : List Char) : Bool :=
  nt == "ダッシュボード".data || nt == "管理画面".data || nt.map lowerChar == "dashboard".data

/-- `handleMessage` of the multi-line webhook variant.  `fetchErr` marks a
failed store read inside `fetchActiveTasks` (which the source maps to an
empty list); row updates and inserts are modelled on their success path. -/
def handleMessage (ai : String → List Proposed) (uid : String) (fetchErr : Bool)
    (db : List Task) (text : String) : MsgOut :=
  let nt := normalizeV2 text.data
  if isListCommand nt then
    ⟨db, [.flexList (if fetchErr then [] else fetchActiveTasks uid db)]⟩
  else if isHelpCommand nt then ⟨db, [.helpText]⟩
  else if isDashboardCommand nt then ⟨db, [.dashboardLink]⟩
  else
    let lines := ((splitLines nt).map trimJS).filter (fun l => !l.isEmpty)
    let tasks := if fetchErr then [] else fetchActiveTasks uid db
    handleMessageCore ai uid tasks lines text db

/-! ### The single-command webhook variant (V1) -/

namespace V1

/-- The active snapshot a V1 handler works with: the fetch result, empty
when the store read failed. -/
def activeList (uid : String) (fetchErr : Bool) (db : List Task) : List Task :=
  if fetchErr then [] else fetchActiveTasks uid db

/-- `handleTaskUpdateStatus`: bound check against the fetched snapshot,
then a status update on the addressed row and a success reply with the
re-fetched list. -/
def handleTaskUpdateStatus (uid : String) (fetchErr : Bool) (db : List Task)
    (displayIndex : Nat) (newStatus : String) : List Task × List Reply :=
  let tasks := activeList uid fetchErr db
  if displayIndex < 1 ∨ tasks.length < displayIndex then
    (db, [.taskNotFound displayIndex])
  else
    match getTask tasks displayIndex with
    | none => (db, [.taskNotFound displayIndex])
    | some t =>
      let db' := updateStatusById db t.id newStatus
      let msg := if newStatus = "削除済み" then Reply.deletedTask t.title
                 else Reply.statusChanged t.title newStatus
      (db', [msg, .flexList (fetchActiveTasks uid db')])

/-- `handlePriorityUpdate`: in this variant the row update writes only the
`priority` column (`update({ priority: newPriority })`). -/
def handlePriorityUpdate (uid : String) (fetchErr : Bool) (db : List Task)
    (displayIndex : Nat) (newPriority : String) : List Task × List Reply :=
  let tasks := activeList uid fetchErr db
  if displayIndex < 1 ∨ tasks.length < displayIndex then
    (db, [.taskNotFound displayIndex])
  else
    match getTask tasks displayIndex with
    | none => (db, [.taskNotFound displayIndex])
    | some t =>
      let db' := updatePriorityById db t.id newPriority
      (db', [.priorityChanged t.title newPriority, .flexList (fetchActiveTasks uid db')])

/-- `handleTaskUpdateTitle` (the rename handler; its caller passes the
already-trimmed capture of the rename regex). -/
def handleTaskUpdateTitle (uid : String) (fetchErr : Bool) (db : List Task)
    (displayIndex : Nat) (newTitle : String) : List Task × List Reply :=
  let tasks := activeList uid fetchErr db
  if displayIndex < 1 ∨ tasks.length < displayIndex then
    (db, [.taskNotFound displayIndex])
  else
    match getTask tasks displayIndex with
    | none => (db, [.taskNotFound displayIndex])
    | some t =>
      let db' := updateTitleById db t.id newTitle
      (db', [.titleChanged t.title newTitle, .flexList (fetchActiveTasks uid db')])

/-- `handleNewTask`: the classifier's parsed JSON array (`none` models the
thrown/caught failure path) is inserted verbatim apart from `user_id` and
the default status — the classifier's `priority` strings are written to
the store without validation. -/
def handleNewTask (uid : String) (parsed : Option (List Proposed)) (db : List Task)
    (text : String) : List Task × List Reply :=
  match parsed with
  | none => (db, [.couldNotUnderstand text])
  | some ts =>
    let db' := insertTasks uid db ts
    (db', [.added ts.length, .flexList (fetchActiveTasks uid db')])

end V1

/-! ### Webhook POST entry point -/

/-- The `POST` handler of the webhook route: a missing channel secret is a
500, a failed signature validation is a 401 with no further processing;
otherwise every text-message event is dispatched to `handleMessage`.
Returns the HTTP status, the store afterwards, and the reply batches
sent (one batch per processed event). -/
def webhookPOST (secret : String) (sigValid : Bool) (ai : String → List Proposed)
    (fetchErr : Bool) (db : List Task) (events : List (String × String)) :
    Nat × List Task × List (List Reply) :=
  if secret = "" then (500, db, [])
  else if !sigValid then (401, db, [])
  else
    let out := events.foldl
      (fun acc e =>
        let r := handleMessage ai e.1 fetchErr acc.1 e.2
        (r.db, acc.2 ++ [r.messages]))
      (db, ([] : List (List Reply)))
    (200, out.1, out.2)

/-! ### Dashboard (`src/app/page.tsx`, first variant) and analyze route -/

namespace Dashboard

/-- `getActiveTasks`: the per-column active filter of the dashboard — one
priority, and none of the statuses done/deleted/on-hold/watching. -/
def getActiveTasks (p : String) (tasks : List Task) : List Task :=
  tasks.filter (fun t =>
    t.priority == p &&
      !(t.status == "完了" || t.status == "削除済み" || t.status == "保留" || t.status == "静観"))

/-- `updatePriority`: `update({ priority, status: '未処理' })` — the
dashboard priority change resets the status. -/
def updatePriority (db : List Task) (id : Nat) (p : String) : List Task :=
  updatePriorityResetById db id p

/-- `updateStatus`: `update({ status })`. -/
def updateStatus (db : List Task) (id : Nat) (s : String) : List Task :=
  updateStatusById db id s

/-- The `statusMap` of `onDragEnd`. -/
def statusMapJS (overId : String) : Option String :=
  if overId = "done_zone" ∨ overId = "完了" then some "完了"
  else if overId = "progress_zone" then some "進行中"
  else if overId = "dev_zone" ∨ overId = "開発中" then some "開発中"
  else if overId = "trash_zone" ∨ overId = "削除済み" then some "削除済み"
  else if overId = "pending_zone" ∨ overId = "保留" then some "保留"
  else if overId = "watch_zone" ∨ overId = "静観" then some "静観"
  else none

/-- The zone-dispatch part of `onDragEnd` (lines deciding between a status
zone and a priority column).  The remaining task-on-task branch moves a
task to another task's column and reorders; it performs no writes beyond
adopting existing field values and is modelled as the identity here since
no claim concerns it. -/
def onDragEndZone (db : List Task) (activeId : Nat) (overId : String) : List Task :=
  match statusMapJS overId with
  | some st => updateStatus db activeId st
  | none =>
    if overId = "S" ∨ overId = "A" ∨ overId = "B" ∨ overId = "C" ∨
       overId = "DEV" ∨ overId = "IDEA" then
      updatePriority db activeId overId
    else db

/-- The analyze API route, abstracted over the model call: a thrown model
error is caught and becomes a 500 error response; a reply without a
bracketed JSON array becomes a successful empty array; a parsed array is
returned as-is. -/
def analyzeRoute (modelOutcome : Except Unit (Option (List Proposed))) :
    Except Unit (List Proposed) :=
  match modelOutcome with
  | .error _ => .error ()
  | .ok none => .ok []
  | .ok (some ts) => .ok ts

/-- The quick-add fallback row: the trimmed raw input as title, category
`手動入力`, priority `IDEA` (status `未処理` is set by `insertTasks`). -/
def fallbackProposal (input : String) : Proposed :=
  { title := String.mk (trimJS input.data), category := "手動入力", priority := "IDEA" }

/-- `handleAddTask` of the dashboard quick-add box.  `analyzed` is the
client's view of the analyze call: `Except.error` when the call threw or
returned a non-array error body (making `analyzed.map` throw);
`firstInsertOk` tells whether the batch insert succeeded.  Any caught
failure inserts the single fallback row instead. -/
def handleAddTask (uid : String) (input : String)
    (analyzed : Except Unit (List Proposed)) (firstInsertOk : Bool)
    (db : List Task) : List Task :=
  if (trimJS input.data).isEmpty then db
  else
    match analyzed with
    | .error _ => insertTasks uid db [fallbackProposal input]
    | .ok ts =>
      if firstInsertOk then insertTasks uid db ts
      else insertTasks uid db [fallbackProposal input]

end Dashboard

/-! ## Theorems -/

/-! ### Shared facts about the comparator and the sorted list -/

theorem taskLE_total : ∀ a b : Task, taskLEP a b ∨ taskLEP b a := by
  intro a b
  unfold taskLEP taskLE
  rcases eq_or_ne (priorityRank a.priority) (priorityRank b.priority) with h | h
  · simp [h, Nat.le_total]
  · simp [h, h.symm]

theorem taskLE_trans : ∀ a b c : Task, taskLEP a b → taskLEP b c → taskLEP a c := by
  intro a b c hab hbc
  unfold taskLEP taskLE at hab hbc ⊢
  rcases eq_or_ne (priorityRank a.priority) (priorityRank b.priority) with h1 | h1 <;>
    rcases eq_or_ne (priorityRank b.priority) (priorityRank c.priority) with h2 | h2
  · rw [if_pos h1] at hab
    rw [if_pos h2] at hbc
    rw [if_pos (h1.trans h2)]
    simp only [decide_eq_true_eq] at hab hbc ⊢
    omega
  · rw [if_neg h2] at hbc
    rw [h1, if_neg h2]
    exact hbc
  · rw [if_neg h1] at hab
    have hne : priorityRank a.priority ≠ priorityRank c.priority := h2 ▸ h1
    rw [if_neg hne, ← h2]
    exact hab
  · rw [if_neg h1] at hab
    rw [if_neg h2] at hbc
    simp only [decide_eq_true_eq] at hab hbc
    have hac : priorityRank a.priority < priorityRank c.priority := Nat.lt_trans hab hbc
    rw [if_neg (Nat.ne_of_lt hac)]
    simp [hac]

instance : IsTotal Task taskLEP := ⟨taskLE_total⟩

instance : IsTrans Task taskLEP := ⟨taskLE_trans⟩

theorem sortActive_pairwise (rows : List Task) : List.Pairwise taskLEP (sortActive rows) :=
  List.sorted_insertionSort taskLEP rows

theorem sortActive_perm (rows : List Task) : (sortActive rows).Perm rows :=
  List.perm_insertionSort taskLEP rows

theorem renderEnumerate_getTask (l : List Task) (n : Nat) (t : Task)
    (h : (n, t) ∈ renderEnumerate l) : getTask l n = some t := by
  unfold renderEnumerate at h
  simp only [List.mem_map] at h
  obtain ⟨x, hx, heq⟩ := h
  have hget := List.mem_enum_iff_getElem?.mp hx
  have hn : n = x.1 + 1 := by
    have := congrArg Prod.fst heq
    simpa using this.symm
  have ht : t = x.2 := by
    have := congrArg Prod.snd heq
    simpa using this.symm
  subst hn
  subst ht
  unfold getTask
  rw [if_neg (Nat.succ_ne_zero _)]
  simp only [Nat.add_sub_cancel]
  simpa using hget

/-! ### C1 — sort order and display indices of the active list -/

/-- C1: every list returned by `fetchActiveTasks` is sorted with primary
key the priority rank (`S`=0, `A`=1, `B`=2, `C`=3, any unmapped priority
rank 3) ascending and secondary key `created_at` ascending; a task of
strictly smaller rank always sits at a strictly smaller position; and the
displayed 1-based number of an entry is exactly the index that `getTask`
(the `tasks[displayIndex - 1]` resolution of the chat commands) maps back
to that entry. -/
theorem fetchActiveTasks_sorted_and_indexed (uid : String) (db : List Task) :
    List.Pairwise taskLEP (fetchActiveTasks uid db) ∧
    (∀ i j : Fin (fetchActiveTasks uid db).length,
        priorityRank ((fetchActiveTasks uid db).get i).priority <
            priorityRank ((fetchActiveTasks uid db).get j).priority →
          (i : Nat) < (j : Nat)) ∧
    (∀ n t, (n, t) ∈ renderEnumerate (fetchActiveTasks uid db) →
        getTask (fetchActiveTasks uid db) n = some t) := by
  have hp : List.Pairwise taskLEP (fetchActiveTasks uid db) :=
    sortActive_pairwise (activeQuery uid db)
  refine ⟨hp, ?_, ?_⟩
  · intro i j hlt
    rcases Nat.lt_trichotomy (i : Nat) (j : Nat) with h | h | h
    · exact h
    · exfalso
      have : i = j := Fin.ext h
      subst this
      exact Nat.lt_irrefl _ hlt
    · exfalso
      have hji : j < i := h
      have hle := List.pairwise_iff_get.mp hp j i hji
      unfold taskLEP taskLE at hle
      by_cases heq :
          priorityRank ((fetchActiveTasks uid db).get j).priority =
            priorityRank ((fetchActiveTasks uid db).get i).priority
      · rw [heq] at hlt
        exact Nat.lt_irrefl _ hlt
      · rw [if_neg heq] at hle
        simp only [decide_eq_true_eq] at hle
        exact Nat.lt_irrefl _ (Nat.lt_trans hlt hle)
  · intro n t h
    exact renderEnumerate_getTask _ n t h

/-- Sample store for the C1 witness: an `A`-rank task created before an
`S`-rank one. -/
def c1Db : List Task :=
  [⟨1, "U", "a", "", "A", "未処理", 5⟩, ⟨2, "U", "s", "", "S", "未処理", 9⟩]

theorem fetchActiveTasks_sorted_and_indexed_witness :
    getTask (fetchActiveTasks "U" c1Db) 1 = some ⟨2, "U", "s", "", "S", "未処理", 9⟩ :=
  (fetchActiveTasks_sorted_and_indexed "U" c1Db).2.2 1
    ⟨2, "U", "s", "", "S", "未処理", 9⟩ (by decide)

/-! ### C2 — contents of the active list -/

/-- C2 (amended): the chat active list contains exactly the user's tasks
whose status is neither `削除済み` nor `完了` — tasks with status `保留`
(on-hold) or `静観` (watching) are *not* excluded there; only the
dashboard's per-column view additionally filters those out. -/
theorem activeList_membership (uid : String) (db : List Task) (t : Task) :
    (t ∈ fetchActiveTasks uid db ↔
      t ∈ db ∧ t.user_id = uid ∧ t.status ≠ "削除済み" ∧ t.status ≠ "完了") ∧
    (∀ p tasks, t ∈ Dashboard.getActiveTasks p tasks →
      t.priority = p ∧ t.status ≠ "保留" ∧ t.status ≠ "静観") := by
  constructor
  · rw [show fetchActiveTasks uid db = sortActive (activeQuery uid db) from rfl,
      (sortActive_perm (activeQuery uid db)).mem_iff]
    unfold activeQuery
    rw [List.mem_filter]
    simp [and_assoc]
  · intro p tasks h
    unfold Dashboard.getActiveTasks at h
    rw [List.mem_filter] at h
    have h2 := h.2
    simp only [Bool.and_eq_true, beq_iff_eq, Bool.not_eq_true', Bool.or_eq_false_iff,
      beq_eq_false_iff_ne] at h2
    exact ⟨h2.1, by tauto, by tauto⟩

/-- On-hold task used by the C2 counterexample and witness. -/
def c2Task : Task := ⟨3, "U", "w", "", "A", "保留", 0⟩

/-- C2 counterexample: a task with status `保留` (on-hold) appears in the
chat active list and is addressable as display index 1, contradicting the
claim that on-hold tasks never appear there. -/
theorem onhold_task_in_active_list :
    c2Task.status = "保留" ∧
    c2Task ∈ fetchActiveTasks "U" [c2Task] ∧
    getTask (fetchActiveTasks "U" [c2Task]) 1 = some c2Task := by decide

theorem activeList_membership_witness :
    c2Task ∈ fetchActiveTasks "U" [c2Task] :=
  (activeList_membership "U" [c2Task] c2Task).1.mpr (by decide)

/-! ### C3 — which priority values reach the store -/

theorem matchPriority_letter (l : List Char) (idx : Nat) (c : Char)
    (h : matchPriority l = some (idx, c)) : c ∈ ['S', 'A', 'B', 'C'] := by
  unfold matchPriority at h
  cases hp : parseDigits l with
  | none => rw [hp] at h; cases h
  | some v =>
    obtain ⟨n, r1⟩ := v
    rw [hp] at h
    dsimp only at h
    split at h
    · split at h
      · rename_i c0 r5 heq hcond
        rw [Option.some_inj] at h
        have hc2 : c0.toUpper = c := congrArg Prod.snd h
        have hc := hcond.1
        have hc' : c0 ∈ sabcChars := by
          have := List.elem_iff.mp hc
          simpa using this
        simp only [sabcChars, List.mem_cons, List.not_mem_nil, or_false] at hc'
        subst hc2
        rcases hc' with h1 | h1 | h1 | h1 | h1 | h1 | h1 | h1 <;> (subst h1; decide)
      · cases h
    · cases h

/-- Invariant transfer through a per-row map whose result row either keeps
the priority or writes an allowed one. -/
theorem priorityAllowed_map (db : List Task) (f : Task → Task)
    (hf : ∀ u, (f u).priority = u.priority ∨ allowedPriority (f u).priority = true)
    (h : ∀ t ∈ db, allowedPriority t.priority = true) :
    ∀ t ∈ db.map f, allowedPriority t.priority = true := by
  intro t ht
  rw [List.mem_map] at ht
  obtain ⟨u, hu, he⟩ := ht
  subst he
  rcases hf u with h1 | h1
  · rw [h1]
    exact h u hu
  · exact h1

theorem updateStatusById_priorityAllowed (db : List Task) (id : Nat) (st : String)
    (h : ∀ t ∈ db, allowedPriority t.priority = true) :
    ∀ t ∈ updateStatusById db id st, allowedPriority t.priority = true := by
  apply priorityAllowed_map db _ _ h
  intro u
  by_cases hid : u.id = id <;> simp [hid]

theorem updateTitleById_priorityAllowed (db : List Task) (id : Nat) (ttl : String)
    (h : ∀ t ∈ db, allowedPriority t.priority = true) :
    ∀ t ∈ updateTitleById db id ttl, allowedPriority t.priority = true := by
  apply priorityAllowed_map db _ _ h
  intro u
  by_cases hid : u.id = id <;> simp [hid]

theorem updatePriorityResetById_priorityAllowed (db : List Task) (id : Nat) (p : String)
    (hp : allowedPriority p = true)
    (h : ∀ t ∈ db, allowedPriority t.priority = true) :
    ∀ t ∈ updatePriorityResetById db id p, allowedPriority t.priority = true := by
  apply priorityAllowed_map db _ _ h
  intro u
  by_cases hid : u.id = id <;> simp [hid, hp]

theorem applyStatusTargets_priorityAllowed (tasks : List Task) (w : List Char) :
    ∀ (targets : List Nat) (s : LoopState),
      (∀ t ∈ s.db, allowedPriority t.priority = true) →
      ∀ t ∈ (applyStatusTargets tasks w s targets).db, allowedPriority t.priority = true := by
  intro targets
  induction targets with
  | nil => intro s h; exact h
  | cons a rest ih =>
    intro s h
    show ∀ t ∈ (applyStatusTargets tasks w _ rest).db, _
    cases hga : getTask tasks a with
    | none =>
      simp only [applyStatusTargets, List.foldl_cons, hga]
      exact ih s h
    | some u =>
      simp only [applyStatusTargets, List.foldl_cons, hga]
      exact ih _ (updateStatusById_priorityAllowed _ _ _ h)

theorem lineStep_priorityAllowed (tasks : List Task) (s : LoopState) (l : List Char)
    (h : ∀ t ∈ s.db, allowedPriority t.priority = true) :
    ∀ t ∈ (lineStep tasks s l).db, allowedPriority t.priority = true := by
  have hD : ∀ t ∈ (lineStepD s l).db, allowedPriority t.priority = true := by
    unfold lineStepD
    split <;> exact h
  have hC : ∀ t ∈ (lineStepC tasks s l).db, allowedPriority t.priority = true := by
    cases hm : matchCommandStart l with
    | none => simpa only [lineStepC, hm] using hD
    | some v =>
      obtain ⟨targets, w⟩ := v
      simp only [lineStepC, hm]
      exact applyStatusTargets_priorityAllowed tasks w targets s h
  have hB : ∀ t ∈ (lineStepB tasks s l).db, allowedPriority t.priority = true := by
    cases hm : matchStatusEnd l with
    | none => simpa only [lineStepB, hm] using hC
    | some v =>
      obtain ⟨targets, w⟩ := v
      simp only [lineStepB, hm]
      exact applyStatusTargets_priorityAllowed tasks w targets s h
  have hA : ∀ t ∈ (lineStepA tasks s l).db, allowedPriority t.priority = true := by
    cases hm : matchPriority l with
    | none => simpa only [lineStepA, hm] using hB
    | some v =>
      obtain ⟨idx, c⟩ := v
      cases hg : getTask tasks idx with
      | none => simpa only [lineStepA, hm, hg] using hB
      | some u =>
        simp only [lineStepA, hm, hg]
        have hc := matchPriority_letter l idx c hm
        have hall : allowedPriority (String.mk [c]) = true := by
          simp only [List.mem_cons, List.not_mem_nil, or_false] at hc
          rcases hc with h1 | h1 | h1 | h1 <;> (subst h1; decide)
        exact updatePriorityResetById_priorityAllowed s.db u.id (String.mk [c]) hall h
  cases hm : matchEdit l with
  | none => simpa only [lineStep, hm] using hA
  | some v =>
    obtain ⟨idx, cs⟩ := v
    cases hg : getTask tasks idx with
    | none => simpa only [lineStep, hm, hg] using hA
    | some u =>
      simp only [lineStep, hm, hg]
      exact updateTitleById_priorityAllowed s.db u.id (String.mk cs) h

/-- C3 (amended): the chat reprioritize command can only write the four
letters `S`/`A`/`B`/`C`, and one step of the interpreter loop — as well as
the dashboard drag dispatch — preserves the invariant that all stored
priorities are among the six enumerated values.  (The AI-classified
insert paths do **not** validate the classifier's priority, see the
counterexample.) -/
theorem command_paths_keep_priorities_enumerated (tasks : List Task) (s : LoopState)
    (l : List Char) :
    (∀ idx c, matchPriority l = some (idx, c) → c ∈ ['S', 'A', 'B', 'C']) ∧
    ((∀ t ∈ s.db, allowedPriority t.priority = true) →
      ∀ t ∈ (lineStep tasks s l).db, allowedPriority t.priority = true) ∧
    (∀ (db : List Task) (id : Nat) (overId : String),
      (∀ t ∈ db, allowedPriority t.priority = true) →
      ∀ t ∈ Dashboard.onDragEndZone db id overId, allowedPriority t.priority = true) := by
  refine ⟨fun idx c h => matchPriority_letter l idx c h,
    fun h => lineStep_priorityAllowed tasks s l h, ?_⟩
  intro db id overId h
  cases hm : Dashboard.statusMapJS overId with
  | some st =>
    simp only [Dashboard.onDragEndZone, hm]
    exact updateStatusById_priorityAllowed db id st h
  | none =>
    simp only [Dashboard.onDragEndZone, hm]
    split
    · rename_i hover
      apply updatePriorityResetById_priorityAllowed _ _ _ _ h
      rcases hover with h1 | h1 | h1 | h1 | h1 | h1 <;> (subst h1; decide)
    · exact h

/-- C3 counterexample: the V1 `handleNewTask` insert path writes the
classifier's `priority` string verbatim — a classifier output of `"Z"`
stores a task whose priority is outside the six enumerated values. -/
theorem classifier_insert_unvalidated_priority :
    ((V1.handleNewTask "U" (some [⟨"x", "y", "Z"⟩]) [] "x").1.map Task.priority = ["Z"]) ∧
    allowedPriority "Z" = false := by decide

/-- Store for the C3 witness. -/
def c3Db : List Task := [⟨1, "U", "t", "c", "S", "進行中", 0⟩]

theorem command_paths_keep_priorities_enumerated_witness :
    allowedPriority (Task.priority ⟨1, "U", "t", "c", "A", "未処理", 0⟩) = true :=
  (command_paths_keep_priorities_enumerated c3Db ⟨c3Db, [], []⟩ "1 を A".data).2.1
    (by decide) ⟨1, "U", "t", "c", "A", "未処理", 0⟩ (by decide)

/-! ### C4 — does a priority change reset the status? -/

/-- C4 (amended): the multi-line chat variant's reprioritize branch and
the dashboard priority update both write the new priority *and* reset
`status` to `未処理` regardless of the previous status; the V1 webhook
variant's `handlePriorityUpdate`, however, writes only the priority (see
the counterexample). -/
theorem priority_change_resets_status (tasks : List Task) (s : LoopState) (l : List Char)
    (idx : Nat) (c : Char) (t : Task)
    (hEdit : matchEdit l = none)
    (hPr : matchPriority l = some (idx, c))
    (hGet : getTask tasks idx = some t) :
    (lineStep tasks s l).db = updatePriorityResetById s.db t.id (String.mk [c]) ∧
    (∀ u ∈ (lineStep tasks s l).db, u.id = t.id →
        u.priority = String.mk [c] ∧ u.status = "未処理") ∧
    (∀ (db : List Task) (id : Nat) (p : String), ∀ u ∈ Dashboard.updatePriority db id p,
        u.id = id → u.priority = p ∧ u.status = "未処理") := by
  have hdb : (lineStep tasks s l).db = updatePriorityResetById s.db t.id (String.mk [c]) := by
    simp only [lineStep, hEdit, lineStepA, hPr, hGet]
  have hgen : ∀ (db : List Task) (id : Nat) (p : String),
      ∀ u ∈ updatePriorityResetById db id p, u.id = id →
        u.priority = p ∧ u.status = "未処理" := by
    intro db id p u hu hid
    unfold updatePriorityResetById at hu
    rw [List.mem_map] at hu
    obtain ⟨v, hv, he⟩ := hu
    by_cases hvid : v.id = id
    · rw [if_pos hvid] at he
      subst he
      exact ⟨rfl, rfl⟩
    · rw [if_neg hvid] at he
      subst he
      exact absurd hid hvid
  refine ⟨hdb, ?_, hgen⟩
  intro u hu hid
  rw [hdb] at hu
  exact hgen s.db t.id (String.mk [c]) u hu hid

/-- Store for the C4 counterexample and witness: one in-progress task. -/
def c4Db : List Task := [⟨7, "U", "t", "c", "B", "進行中", 0⟩]

/-- C4 counterexample: the V1 webhook variant's chat reprioritize handler
leaves the previous status in place — reprioritizing an in-progress task
to `S` keeps `status = 進行中` instead of resetting it to `未処理`. -/
theorem v1_priority_update_keeps_status :
    (V1.handlePriorityUpdate "U" false c4Db 1 "S").1 =
      [⟨7, "U", "t", "c", "S", "進行中", 0⟩] ∧
    ("進行中" : String) ≠ "未処理" := by decide

theorem priority_change_resets_status_witness :
    (lineStep c4Db ⟨c4Db, [], []⟩ "1 を S".data).db =
      updatePriorityResetById c4Db 7 "S" :=
  (priority_change_resets_status c4Db ⟨c4Db, [], []⟩ "1 を S".data 1 'S'
    ⟨7, "U", "t", "c", "B", "進行中", 0⟩ (by decide) (by decide) (by decide)).1

/-! ### C5 — out-of-range display indices -/

theorem applyStatusTargets_skip (tasks : List Task) (w : List Char) :
    ∀ (targets : List Nat) (s : LoopState),
      (∀ i ∈ targets, getTask tasks i = none) →
      applyStatusTargets tasks w s targets = s := by
  intro targets
  induction targets with
  | nil => intro s _; rfl
  | cons a rest ih =>
    intro s h
    have ha : getTask tasks a = none := h a (by simp)
    have hstep : applyStatusTargets tasks w s (a :: rest) =
        applyStatusTargets tasks w s rest := by
      simp only [applyStatusTargets, List.foldl_cons, ha]
    rw [hstep]
    exact ih s (fun i hi => h i (by simp [hi]))

theorem lineStepD_db (s : LoopState) (l : List Char) : (lineStepD s l).db = s.db := by
  unfold lineStepD
  split <;> rfl

/-- Only a successfully dispatched command line can touch the store: a
line the dispatch does not classify as a command leaves `db` unchanged. -/
theorem lineStep_db_of_not_command (tasks : List Task) (s : LoopState) (l : List Char)
    (h : classifyLine tasks l ≠ .command) : (lineStep tasks s l).db = s.db := by
  have hC : classifyC l ≠ .command → (lineStepC tasks s l).db = s.db := by
    intro hc
    cases hm : matchCommandStart l with
    | none => simpa only [lineStepC, hm] using lineStepD_db s l
    | some v =>
      obtain ⟨targets, w⟩ := v
      exact absurd (by simp only [classifyC, hm]) hc
  have hB : classifyB l ≠ .command → (lineStepB tasks s l).db = s.db := by
    intro hc
    cases hm : matchStatusEnd l with
    | none =>
      have hc' : classifyC l ≠ .command := by
        simpa only [classifyB, hm] using hc
      simpa only [lineStepB, hm] using hC hc'
    | some v =>
      obtain ⟨targets, w⟩ := v
      exact absurd (by simp only [classifyB, hm]) hc
  have hA : classifyA tasks l ≠ .command → (lineStepA tasks s l).db = s.db := by
    intro hc
    cases hm : matchPriority l with
    | none =>
      have hc' : classifyB l ≠ .command := by
        simpa only [classifyA, hm] using hc
      simpa only [lineStepA, hm] using hB hc'
    | some v =>
      obtain ⟨idx, c⟩ := v
      cases hg : getTask tasks idx with
      | none =>
        have hc' : classifyB l ≠ .command := by
          simpa only [classifyA, hm, hg] using hc
        simpa only [lineStepA, hm, hg] using hB hc'
      | some u => exact absurd (by simp only [classifyA, hm, hg]) hc
  cases hm : matchEdit l with
  | none =>
    have hc' : classifyA tasks l ≠ .command := by
      simpa only [classifyLine, hm] using h
    simpa only [lineStep, hm] using hA hc'
  | some v =>
    obtain ⟨idx, cs⟩ := v
    cases hg : getTask tasks idx with
    | none =>
      have hc' : classifyA tasks l ≠ .command := by
        simpa only [classifyLine, hm, hg] using h
      simpa only [lineStep, hm, hg] using hA hc'
    | some u => exact absurd (by simp only [classifyLine, hm, hg]) h

/-- C5 (amended): an out-of-range display index never performs the
commanded update.  The V1 single-command handlers additionally reply
"task not found" and leave the store untouched; in the multi-line
interpreter a line that does not dispatch as a command leaves the store
untouched, and a multi-target status line skips each out-of-range index
silently — but no "task not found" reply exists there (see the
counterexample, where such a line even reaches the AI classifier). -/
theorem out_of_range_index_behavior (uid : String) (fetchErr : Bool) (db : List Task)
    (idx : Nat) (st p ttl : String) (tasks : List Task) (s : LoopState) (l : List Char) :
    (idx < 1 ∨ (V1.activeList uid fetchErr db).length < idx →
        V1.handleTaskUpdateStatus uid fetchErr db idx st = (db, [.taskNotFound idx]) ∧
        V1.handlePriorityUpdate uid fetchErr db idx p = (db, [.taskNotFound idx]) ∧
        V1.handleTaskUpdateTitle uid fetchErr db idx ttl = (db, [.taskNotFound idx])) ∧
    (classifyLine tasks l ≠ .command → (lineStep tasks s l).db = s.db) ∧
    (∀ targets w, matchEdit l = none → matchPriority l = none →
        matchStatusEnd l = some (targets, w) →
        (∀ i ∈ targets, getTask tasks i = none) →
        lineStep tasks s l = s) ∧
    (∀ targets w, matchEdit l = none → matchPriority l = none →
        matchStatusEnd l = none → matchCommandStart l = some (targets, w) →
        (∀ i ∈ targets, getTask tasks i = none) →
        lineStep tasks s l = s) := by
  refine ⟨?_, lineStep_db_of_not_command tasks s l, ?_, ?_⟩
  · intro hout
    refine ⟨?_, ?_, ?_⟩
    · simp only [V1.handleTaskUpdateStatus]
      rw [if_pos hout]
    · simp only [V1.handlePriorityUpdate]
      rw [if_pos hout]
    · simp only [V1.handleTaskUpdateTitle]
      rw [if_pos hout]
  · intro targets w hE hP hSE hnone
    simp only [lineStep, hE, lineStepA, hP, lineStepB, hSE]
    exact applyStatusTargets_skip tasks w targets s hnone
  · intro targets w hE hP hSE hCS hnone
    simp only [lineStep, hE, lineStepA, hP, lineStepB, hSE, lineStepC, hCS]
    exact applyStatusTargets_skip tasks w targets s hnone

/-- C5 counterexample: with zero active tasks, the multi-line interpreter
answers the out-of-range status command `1 完了` with the generic
"could not understand" reply — not a "task not found" reply — and the
out-of-range reprioritize line `5S` falls through to the AI classifier,
which *does* mutate the store by inserting a new task. -/
theorem out_of_range_counterexample :
    handleMessage aiEmpty "U" false [] "1 完了" =
      ⟨[], [.couldNotUnderstand "1 完了"]⟩ ∧
    (handleMessage aiOneS "U" false [] "5S").db ≠ [] := by decide

theorem out_of_range_index_behavior_witness :
    V1.handleTaskUpdateStatus "U" false [] 1 "完了" = ([], [.taskNotFound 1]) :=
  ((out_of_range_index_behavior "U" false [] 1 "完了" "S" "x" [] ⟨[], [], []⟩ []).1
    (by decide)).1

/-! ### C6 — multi-line batching and malformed command lines -/

theorem applyStatusTargets_cons (tasks : List Task) (w : List Char) (a : Nat)
    (rest : List Nat) (s : LoopState) :
    applyStatusTargets tasks w s (a :: rest) =
      applyStatusTargets tasks w
        (match getTask tasks a with
         | some t =>
           { s with db := updateStatusById s.db t.id (statusFromWord w),
                    results := s.results ++ [.statusOk (String.mk w) t.title] }
         | none => s) rest := by
  simp only [applyStatusTargets, List.foldl_cons]

theorem applyStatusTargets_taskLines (tasks : List Task) (w : List Char) :
    ∀ (targets : List Nat) (s : LoopState),
      (applyStatusTargets tasks w s targets).taskLines = s.taskLines := by
  intro targets
  induction targets with
  | nil => intro s; rfl
  | cons a rest ih =>
    intro s
    rw [applyStatusTargets_cons]
    cases ha : getTask tasks a with
    | none => exact ih s
    | some u => rw [ih]

theorem applyStatusTargets_results_extends (tasks : List Task) (w : List Char) :
    ∀ (targets : List Nat) (s : LoopState),
      ∃ d, (applyStatusTargets tasks w s targets).results = s.results ++ d := by
  intro targets
  induction targets with
  | nil => intro s; exact ⟨[], by simp [applyStatusTargets]⟩
  | cons a rest ih =>
    intro s
    rw [applyStatusTargets_cons]
    cases ha : getTask tasks a with
    | none => exact ih s
    | some u =>
      obtain ⟨d, hd⟩ := ih
        { s with db := updateStatusById s.db u.id (statusFromWord w),
                 results := s.results ++ [.statusOk (String.mk w) u.title] }
      refine ⟨[.statusOk (String.mk w) u.title] ++ d, ?_⟩
      rw [hd]
      simp

/-- One line contributes to `taskLines` exactly when it classifies as
free text, and then contributes itself. -/
theorem lineStep_taskLines (tasks : List Task) (s : LoopState) (l : List Char) :
    (lineStep tasks s l).taskLines =
      s.taskLines ++ (if classifyLine tasks l = .freeText then [l] else []) := by
  have hD : (lineStepD s l).taskLines =
      s.taskLines ++ (if classifyD l = .freeText then [l] else []) := by
    by_cases hd : digitLead l <;> simp [lineStepD, classifyD, hd]
  have hC : (lineStepC tasks s l).taskLines =
      s.taskLines ++ (if classifyC l = .freeText then [l] else []) := by
    cases hm : matchCommandStart l with
    | none => simpa only [lineStepC, classifyC, hm] using hD
    | some v =>
      obtain ⟨targets, w⟩ := v
      simp only [lineStepC, classifyC, hm]
      rw [applyStatusTargets_taskLines]
      simp
  have hB : (lineStepB tasks s l).taskLines =
      s.taskLines ++ (if classifyB l = .freeText then [l] else []) := by
    cases hm : matchStatusEnd l with
    | none => simpa only [lineStepB, classifyB, hm] using hC
    | some v =>
      obtain ⟨targets, w⟩ := v
      simp only [lineStepB, classifyB, hm]
      rw [applyStatusTargets_taskLines]
      simp
  have hA : (lineStepA tasks s l).taskLines =
      s.taskLines ++ (if classifyA tasks l = .freeText then [l] else []) := by
    cases hm : matchPriority l with
    | none => simpa only [lineStepA, classifyA, hm] using hB
    | some v =>
      obtain ⟨idx, c⟩ := v
      cases hg : getTask tasks idx with
      | none => simpa only [lineStepA, classifyA, hm, hg] using hB
      | some u => simp [lineStepA, classifyA, hm, hg]
  cases hm : matchEdit l with
  | none => simpa only [lineStep, classifyLine, hm] using hA
  | some v =>
    obtain ⟨idx, cs⟩ := v
    cases hg : getTask tasks idx with
    | none => simpa only [lineStep, classifyLine, hm, hg] using hA
    | some u => simp [lineStep, classifyLine, hm, hg]

theorem lineStep_results_extends (tasks : List Task) (s : LoopState) (l : List Char) :
    ∃ d, (lineStep tasks s l).results = s.results ++ d := by
  have hD : ∃ d, (lineStepD s l).results = s.results ++ d := by
    by_cases hd : digitLead l
    · exact ⟨[.unrecognized (String.mk l)], by simp [lineStepD, hd]⟩
    · exact ⟨[], by simp [lineStepD, hd]⟩
  have hC : ∃ d, (lineStepC tasks s l).results = s.results ++ d := by
    cases hm : matchCommandStart l with
    | none => simpa only [lineStepC, hm] using hD
    | some v =>
      obtain ⟨targets, w⟩ := v
      simp only [lineStepC, hm]
      exact applyStatusTargets_results_extends tasks w targets s
  have hB : ∃ d, (lineStepB tasks s l).results = s.results ++ d := by
    cases hm : matchStatusEnd l with
    | none => simpa only [lineStepB, hm] using hC
    | some v =>
      obtain ⟨targets, w⟩ := v
      simp only [lineStepB, hm]
      exact applyStatusTargets_results_extends tasks w targets s
  have hA : ∃ d, (lineStepA tasks s l).results = s.results ++ d := by
    cases hm : matchPriority l with
    | none => simpa only [lineStepA, hm] using hB
    | some v =>
      obtain ⟨idx, c⟩ := v
      cases hg : getTask tasks idx with
      | none => simpa only [lineStepA, hm, hg] using hB
      | some u => exact ⟨[.priorityOk u.title c], by simp [lineStepA, hm, hg]⟩
  cases hm : matchEdit l with
  | none => simpa only [lineStep, hm] using hA
  | some v =>
    obtain ⟨idx, cs⟩ := v
    cases hg : getTask tasks idx with
    | none => simpa only [lineStep, hm, hg] using hA
    | some u =>
      exact ⟨[.editOk u.title (String.mk cs)], by simp [lineStep, hm, hg]⟩

/-- A line classified as a malformed command appends exactly its
unrecognized-command report. -/
theorem lineStep_results_bad (tasks : List Task) (s : LoopState) (l : List Char)
    (h : classifyLine tasks l = .badCommand) :
    (lineStep tasks s l).results = s.results ++ [.unrecognized (String.mk l)] := by
  have hD : classifyD l = .badCommand →
      (lineStepD s l).results = s.results ++ [.unrecognized (String.mk l)] := by
    intro hc
    by_cases hd : digitLead l
    · simp [lineStepD, hd]
    · simp [classifyD, hd] at hc
  have hC : classifyC l = .badCommand →
      (lineStepC tasks s l).results = s.results ++ [.unrecognized (String.mk l)] := by
    intro hc
    cases hm : matchCommandStart l with
    | none =>
      have hc' : classifyD l = .badCommand := by simpa only [classifyC, hm] using hc
      simpa only [lineStepC, hm] using hD hc'
    | some v =>
      obtain ⟨targets, w⟩ := v
      rw [classifyC, hm] at hc
      cases hc
  have hB : classifyB l = .badCommand →
      (lineStepB tasks s l).results = s.results ++ [.unrecognized (String.mk l)] := by
    intro hc
    cases hm : matchStatusEnd l with
    | none =>
      have hc' : classifyC l = .badCommand := by simpa only [classifyB, hm] using hc
      simpa only [lineStepB, hm] using hC hc'
    | some v =>
      obtain ⟨targets, w⟩ := v
      rw [classifyB, hm] at hc
      cases hc
  have hA : classifyA tasks l = .badCommand →
      (lineStepA tasks s l).results = s.results ++ [.unrecognized (String.mk l)] := by
    intro hc
    cases hm : matchPriority l with
    | none =>
      have hc' : classifyB l = .badCommand := by simpa only [classifyA, hm] using hc
      simpa only [lineStepA, hm] using hB hc'
    | some v =>
      obtain ⟨idx, c⟩ := v
      cases hg : getTask tasks idx with
      | none =>
        have hc' : classifyB l = .badCommand := by
          simpa only [classifyA, hm, hg] using hc
        simpa only [lineStepA, hm, hg] using hB hc'
      | some u =>
        rw [classifyA, hm] at hc
        simp only [hg] at hc
        cases hc
  cases hm : matchEdit l with
  | none =>
    have hc' : classifyA tasks l = .badCommand := by
      simpa only [classifyLine, hm] using h
    simpa only [lineStep, hm] using hA hc'
  | some v =>
    obtain ⟨idx, cs⟩ := v
    cases hg : getTask tasks idx with
    | none =>
      have hc' : classifyA tasks l = .badCommand := by
        simpa only [classifyLine, hm, hg] using h
      simpa only [lineStep, hm, hg] using hA hc'
    | some u =>
      rw [classifyLine, hm] at h
      simp only [hg] at h
      cases h

theorem foldl_lineStep_taskLines (tasks : List Task) :
    ∀ (lines : List (List Char)) (s : LoopState),
      (lines.foldl (lineStep tasks) s).taskLines =
        s.taskLines ++ lines.filter (fun l => classifyLine tasks l == LineClass.freeText) := by
  intro lines
  induction lines with
  | nil => intro s; simp
  | cons a ls ih =>
    intro s
    rw [List.foldl_cons, ih, lineStep_taskLines]
    by_cases hc : classifyLine tasks a = .freeText
    · simp [List.filter_cons, hc]
    · simp [List.filter_cons, hc]

theorem foldl_lineStep_results_mem (tasks : List Task) :
    ∀ (lines : List (List Char)) (s : LoopState) (r : Reply),
      r ∈ s.results → r ∈ (lines.foldl (lineStep tasks) s).results := by
  intro lines
  induction lines with
  | nil => intro s r h; exact h
  | cons a ls ih =>
    intro s r h
    rw [List.foldl_cons]
    apply ih
    obtain ⟨d, hd⟩ := lineStep_results_extends tasks s a
    rw [hd]
    exact List.mem_append_left _ h

theorem foldl_lineStep_bad_mem (tasks : List Task) :
    ∀ (lines : List (List Char)) (s : LoopState) (l : List Char),
      l ∈ lines → classifyLine tasks l = .badCommand →
      Reply.unrecognized (String.mk l) ∈ (lines.foldl (lineStep tasks) s).results := by
  intro lines
  induction lines with
  | nil => intro s l h; cases h
  | cons a ls ih =>
    intro s l hmem hbad
    rw [List.foldl_cons]
    rcases List.mem_cons.mp hmem with h | h
    · subst h
      apply foldl_lineStep_results_mem
      rw [lineStep_results_bad tasks s l hbad]
      simp
    · exact ih _ l h hbad

/-- The final store of one message pass: the loop's store, plus the AI
batch insert when the batch is nonempty and the classifier extracted
something. -/
theorem handleMessageCore_db (ai : String → List Proposed) (uid : String)
    (tasks : List Task) (lines : List (List Char)) (raw : String) (db0 : List Task) :
    (handleMessageCore ai uid tasks lines raw db0).db =
      (if (lines.foldl (lineStep tasks) ⟨db0, [], []⟩).taskLines.isEmpty then
        (lines.foldl (lineStep tasks) ⟨db0, [], []⟩).db
       else if (ai (joinLines (lines.foldl (lineStep tasks) ⟨db0, [], []⟩).taskLines)).isEmpty then
        (lines.foldl (lineStep tasks) ⟨db0, [], []⟩).db
       else
        insertTasks uid (lines.foldl (lineStep tasks) ⟨db0, [], []⟩).db
          (ai (joinLines (lines.foldl (lineStep tasks) ⟨db0, [], []⟩).taskLines))) := by
  simp only [handleMessageCore]
  by_cases h1 : (lines.foldl (lineStep tasks) ⟨db0, [], []⟩).taskLines.isEmpty = true
  · rw [if_pos h1, if_pos h1]
    split <;> rfl
  · rw [if_neg h1, if_neg h1]
    by_cases h2 :
        (ai (joinLines (lines.foldl (lineStep tasks) ⟨db0, [], []⟩).taskLines)).isEmpty = true
    · rw [if_pos h2]
      simp only [h2, Bool.not_true, Bool.false_eq_true, if_false]
      split <;> (try split) <;> rfl
    · rw [if_neg h2]
      simp only [Bool.not_eq_true] at h2
      simp only [h2, Bool.not_false, if_true]
      split <;> rfl

theorem handleMessageCore_mem_results (ai : String → List Proposed) (uid : String)
    (tasks : List Task) (lines : List (List Char)) (raw : String) (db0 : List Task)
    (r : Reply)
    (h : r ∈ (lines.foldl (lineStep tasks) ⟨db0, [], []⟩).results) :
    r ∈ (handleMessageCore ai uid tasks lines raw db0).messages := by
  have hne : ((lines.foldl (lineStep tasks) ⟨db0, [], []⟩).results).isEmpty = false := by
    cases hh : (lines.foldl (lineStep tasks) ⟨db0, [], []⟩).results with
    | nil => rw [hh] at h; cases h
    | cons x xs => rfl
  simp only [handleMessageCore]
  by_cases h1 : (lines.foldl (lineStep tasks) ⟨db0, [], []⟩).taskLines.isEmpty = true
  · rw [if_pos h1, if_neg (by simp [hne])]
    exact List.mem_append_left _ h
  · rw [if_neg h1]
    by_cases h2 :
        (ai (joinLines (lines.foldl (lineStep tasks) ⟨db0, [], []⟩).taskLines)).isEmpty = true
    · simp only [h2, Bool.not_true, Bool.false_eq_true, if_false]
      rw [if_neg (by simp [hne]), if_neg (by simp [hne])]
      exact List.mem_append_left _ h
    · simp only [Bool.not_eq_true] at h2
      simp only [h2, Bool.not_false, if_true]
      rw [if_neg (by simp [List.isEmpty_iff])]
      exact List.mem_append_left _ (List.mem_append_left _ h)

/-- C6 (amended): in a multi-line message, the lines accumulated for the
AI are exactly those the dispatch classifies as free text; a line the
dispatch reports as a malformed command yields an unrecognized-command
reply and never reaches the batch; and the store receives exactly one
batch insert, from the classifier applied once to the joined accumulated
lines.  (The malformed-command test is the leading-digit *pattern*
`/^\d+(\s|は|を|$)/`, not "begins with a digit": see the counterexample.) -/
theorem multiline_batching (ai : String → List Proposed) (uid : String)
    (tasks db0 : List Task) (lines : List (List Char)) (raw : String) :
    ((lines.foldl (lineStep tasks) ⟨db0, [], []⟩).taskLines =
      lines.filter (fun l => classifyLine tasks l == LineClass.freeText)) ∧
    (∀ l ∈ lines, classifyLine tasks l = .badCommand →
      Reply.unrecognized (String.mk l) ∈
          (handleMessageCore ai uid tasks lines raw db0).messages ∧
        l ∉ (lines.foldl (lineStep tasks) ⟨db0, [], []⟩).taskLines) ∧
    ((lines.foldl (lineStep tasks) ⟨db0, [], []⟩).taskLines.isEmpty = false →
      (handleMessageCore ai uid tasks lines raw db0).db =
        (if (ai (joinLines (lines.foldl (lineStep tasks) ⟨db0, [], []⟩).taskLines)).isEmpty
         then (lines.foldl (lineStep tasks) ⟨db0, [], []⟩).db
         else insertTasks uid (lines.foldl (lineStep tasks) ⟨db0, [], []⟩).db
           (ai (joinLines (lines.foldl (lineStep tasks) ⟨db0, [], []⟩).taskLines)))) := by
  have hTL : (lines.foldl (lineStep tasks) ⟨db0, [], []⟩).taskLines =
      lines.filter (fun l => classifyLine tasks l == LineClass.freeText) := by
    rw [foldl_lineStep_taskLines]
    rfl
  refine ⟨hTL, ?_, ?_⟩
  · intro l hl hbad
    constructor
    · exact handleMessageCore_mem_results ai uid tasks lines raw db0 _
        (foldl_lineStep_bad_mem tasks lines ⟨db0, [], []⟩ l hl hbad)
    · rw [hTL]
      intro hmem
      have := (List.mem_filter.mp hmem).2
      rw [hbad] at this
      cases this
  · intro h1
    rw [handleMessageCore_db, if_neg (by simp [h1])]

/-- C6 counterexample: the line `1abc` begins with a digit and matches no
command pattern, yet it is accumulated into the AI batch (it is treated
as free text) and produces no error report, because the malformed-command
test requires a separator (or end of line) right after the digits. -/
theorem digit_line_forwarded_to_ai :
    ("1abc".data.head? = some '1' ∧ ('1').isDigit = true) ∧
    matchEdit "1abc".data = none ∧ matchPriority "1abc".data = none ∧
    matchStatusEnd "1abc".data = none ∧ matchCommandStart "1abc".data = none ∧
    (lineStep [] ⟨[], [], []⟩ "1abc".data).taskLines = ["1abc".data] ∧
    (lineStep [] ⟨[], [], []⟩ "1abc".data).results = [] := by decide

theorem multiline_batching_witness :
    Reply.unrecognized "5 は S" ∈
      (handleMessageCore aiEmpty "U" [] ["5 は S".data] "5 は S" []).messages :=
  ((multiline_batching aiEmpty "U" [] [] ["5 は S".data] "5 は S").2.1 "5 は S".data
    (by decide) (by decide)).1

/-! ### C7 — dashboard quick-add fallback -/

/-- C7 (amended): whenever the analyze call throws (or returns an error
body) or the batch insert errors, quick-add inserts exactly one fallback
task carrying the trimmed raw input as title, category `手動入力`,
priority `IDEA` and status `未処理`.  (When classification *succeeds with
an empty list* — e.g. the model reply holds no JSON array, which the
analyze endpoint returns as `[]` — nothing is inserted and the input is
dropped: see the counterexample.) -/
theorem quickadd_fallback (uid input : String) (db : List Task) (ts : List Proposed)
    (h : (trimJS input.data).isEmpty = false) :
    (Dashboard.handleAddTask uid input (.error ()) true db =
        insertTasks uid db [Dashboard.fallbackProposal input] ∧
      Dashboard.handleAddTask uid input (.error ()) false db =
        insertTasks uid db [Dashboard.fallbackProposal input] ∧
      Dashboard.handleAddTask uid input (.ok ts) false db =
        insertTasks uid db [Dashboard.fallbackProposal input]) ∧
    insertTasks uid db [Dashboard.fallbackProposal input] =
      db ++ [⟨db.length, uid, String.mk (trimJS input.data), "手動入力", "IDEA", "未処理", 0⟩] ∧
    Dashboard.analyzeRoute (.error ()) = .error () := by
  refine ⟨⟨?_, ?_, ?_⟩, ?_, rfl⟩ <;>
    simp [Dashboard.handleAddTask, h, insertTasks, Dashboard.fallbackProposal]

/-- C7 counterexample: when the model reply contains no JSON array the
analyze route reports success with an empty array, and quick-add then
inserts nothing — no fallback row, the non-empty input is silently
dropped. -/
theorem quickadd_empty_extraction_drops_input :
    Dashboard.analyzeRoute (.ok none) = .ok [] ∧
    (trimJS "hello".data).isEmpty = false ∧
    Dashboard.handleAddTask "U" "hello" (.ok []) true [] = [] :=
  ⟨rfl, by decide, by decide⟩

theorem quickadd_fallback_witness :
    Dashboard.handleAddTask "U" "hello" (.error ()) true [] =
      insertTasks "U" [] [Dashboard.fallbackProposal "hello"] :=
  ((quickadd_fallback "U" "hello" [] [] (by decide)).1).1

/-! ### C8 — rename is idempotent on the title -/

theorem getTask_some_bounds (tasks : List Task) (idx : Nat) (t : Task)
    (h : getTask tasks idx = some t) : 1 ≤ idx ∧ idx ≤ tasks.length := by
  unfold getTask at h
  by_cases h0 : idx = 0
  · rw [if_pos h0] at h
    cases h
  · rw [if_neg h0] at h
    have hlt : idx - 1 < tasks.length := List.get?_eq_some.mp h |>.1
    omega

theorem updateTitleById_self (db : List Task) (t : Task)
    (h : ∀ u ∈ db, u.id = t.id → u.title = t.title) :
    updateTitleById db t.id t.title = db := by
  unfold updateTitleById
  have hcongr : ∀ u ∈ db,
      (if u.id = t.id then { u with title := t.title } else u) = u := by
    intro u hu
    by_cases hid : u.id = t.id
    · rw [if_pos hid, ← h u hu hid]
    · rw [if_neg hid]
  rw [List.map_congr_left hcongr, List.map_id']

/-- C8: renaming an active task to its current title succeeds and leaves
the stored title (and the whole store) byte-for-byte unchanged: in the V1
handler the update writes the identical row back and the success reply is
still produced, and likewise the multi-line variant's rename branch
leaves the store unchanged.  (The id-uniqueness hypothesis reflects that
store rows have unique ids.) -/
theorem rename_idempotent (uid : String) (fetchErr : Bool) (db : List Task)
    (idx : Nat) (t : Task)
    (hGet : getTask (V1.activeList uid fetchErr db) idx = some t)
    (hUniq : ∀ u ∈ db, u.id = t.id → u.title = t.title) :
    V1.handleTaskUpdateTitle uid fetchErr db idx t.title =
      (db, [.titleChanged t.title t.title, .flexList (fetchActiveTasks uid db)]) ∧
    (∀ (tasks : List Task) (s : LoopState) (l cs : List Char) (idx2 : Nat) (t2 : Task),
      matchEdit l = some (idx2, cs) → getTask tasks idx2 = some t2 →
      String.mk cs = t2.title →
      (∀ u ∈ s.db, u.id = t2.id → u.title = t2.title) →
      (lineStep tasks s l).db = s.db) := by
  constructor
  · have hbounds := getTask_some_bounds _ idx t hGet
    have hcond : ¬(idx < 1 ∨ (V1.activeList uid fetchErr db).length < idx) := by omega
    simp only [V1.handleTaskUpdateTitle]
    rw [if_neg hcond, hGet]
    dsimp only
    rw [updateTitleById_self db t hUniq]
  · intro tasks s l cs idx2 t2 hm hg hts hu
    simp only [lineStep, hm, hg]
    rw [hts, updateTitleById_self s.db t2 hu]

/-- Store for the C8 witness. -/
def c8Db : List Task := [⟨1, "U", "hello", "c", "A", "未処理", 0⟩]

theorem rename_idempotent_witness :
    V1.handleTaskUpdateTitle "U" false c8Db 1 "hello" =
      (c8Db, [.titleChanged "hello" "hello", .flexList (fetchActiveTasks "U" c8Db)]) :=
  (rename_idempotent "U" false c8Db 1 ⟨1, "U", "hello", "c", "A", "未処理", 0⟩
    (by decide) (by decide)).1

/-! ### C9 — invalid webhook signatures are rejected -/

/-- C9: with a configured channel secret, a request whose signature does
not validate is answered with 401 and nothing else happens: the store is
untouched and no reply batch is produced for any event. -/
theorem invalid_signature_rejected (secret : String) (sigValid : Bool)
    (ai : String → List Proposed) (fetchErr : Bool) (db : List Task)
    (events : List (String × String)) (hs : secret ≠ "") (hv : sigValid = false) :
    webhookPOST secret sigValid ai fetchErr db events = (401, db, []) := by
  unfold webhookPOST
  rw [if_neg hs, hv]
  rfl

theorem invalid_signature_rejected_witness :
    webhookPOST "secret" false aiEmpty false [] [("U", "hello")] = (401, [], []) :=
  invalid_signature_rejected "secret" false aiEmpty false [] [("U", "hello")]
    (by decide) rfl

/-! ### C10 — a failed store read acts as an empty task list -/

theorem getTask_nil (idx : Nat) : getTask [] idx = none := by
  unfold getTask
  split
  · rfl
  · simp

theorem lineStep_nil_db (s : LoopState) (l : List Char) : (lineStep [] s l).db = s.db := by
  have happ : ∀ (w : List Char) (targets : List Nat) (s' : LoopState),
      applyStatusTargets [] w s' targets = s' :=
    fun w targets s' => applyStatusTargets_skip [] w targets s' (fun i _ => getTask_nil i)
  have hD := lineStepD_db s l
  have hC : (lineStepC [] s l).db = s.db := by
    cases hm : matchCommandStart l with
    | none => simpa only [lineStepC, hm] using hD
    | some v =>
      obtain ⟨targets, w⟩ := v
      simp only [lineStepC, hm, happ]
  have hB : (lineStepB [] s l).db = s.db := by
    cases hm : matchStatusEnd l with
    | none => simpa only [lineStepB, hm] using hC
    | some v =>
      obtain ⟨targets, w⟩ := v
      simp only [lineStepB, hm, happ]
  have hA : (lineStepA [] s l).db = s.db := by
    cases hm : matchPriority l with
    | none => simpa only [lineStepA, hm] using hB
    | some v =>
      obtain ⟨idx, c⟩ := v
      simp only [lineStepA, hm, getTask_nil]
      exact hB
  cases hm : matchEdit l with
  | none => simpa only [lineStep, hm] using hA
  | some v =>
    obtain ⟨idx, cs⟩ := v
    simp only [lineStep, hm, getTask_nil]
    exact hA

/-- C10: `fetchActiveTasks` maps a failed store read to the empty list —
indistinguishable from a successful read of zero rows; consequently a V1
index command under a fetch failure replies "task not found" for *every*
index and never mutates the store, one interpreter step over the empty
snapshot never mutates the store, and the whole multi-line pass under a
fetch failure equals the pass over an empty snapshot (so no store
failure is ever reported: the replies are exactly those of a user with
zero active tasks). -/
theorem fetch_error_acts_as_empty (ai : String → List Proposed) (uid : String)
    (db : List Task) (text : String) (idx : Nat) (st p ttl : String)
    (s : LoopState) (l : List Char) :
    fetchActiveTasksResult none = [] ∧
    fetchActiveTasksResult none = fetchActiveTasksResult (some []) ∧
    V1.handleTaskUpdateStatus uid true db idx st = (db, [.taskNotFound idx]) ∧
    V1.handlePriorityUpdate uid true db idx p = (db, [.taskNotFound idx]) ∧
    V1.handleTaskUpdateTitle uid true db idx ttl = (db, [.taskNotFound idx]) ∧
    (lineStep [] s l).db = s.db ∧
    (isListCommand (normalizeV2 text.data) = false →
      isHelpCommand (normalizeV2 text.data) = false →
      isDashboardCommand (normalizeV2 text.data) = false →
      handleMessage ai uid true db text =
        handleMessageCore ai uid []
          (((splitLines (normalizeV2 text.data)).map trimJS).filter (fun l => !l.isEmpty))
          text db) ∧
    (isListCommand (normalizeV2 text.data) = true →
      handleMessage ai uid true db text = ⟨db, [.flexList []]⟩) := by
  have hlen : (V1.activeList uid true db).length = 0 := by simp [V1.activeList]
  have hidx : idx < 1 ∨ (V1.activeList uid true db).length < idx := by
    rw [hlen]
    omega
  refine ⟨rfl, rfl, ?_, ?_, ?_, lineStep_nil_db s l, ?_, ?_⟩
  · simp only [V1.handleTaskUpdateStatus]
    rw [if_pos hidx]
  · simp only [V1.handlePriorityUpdate]
    rw [if_pos hidx]
  · simp only [V1.handleTaskUpdateTitle]
    rw [if_pos hidx]
  · intro hL hH hD2
    simp [handleMessage, hL, hH, hD2]
  · intro hL
    simp [handleMessage, hL]

theorem fetch_error_acts_as_empty_witness :
    handleMessage aiEmpty "U" true c4Db "一覧" = ⟨c4Db, [.flexList []]⟩ :=
  (fetch_error_acts_as_empty aiEmpty "U" c4Db "一覧" 0 "" "" "" ⟨[], [], []⟩
    []).2.2.2.2.2.2.2 (by decide)

end TaskApp
